import Mathlib

/-!
Shallow embedding of the Total puzzle engine: the `GameLogicService`
arithmetic/puzzle utilities and the session state machine embedded in the
gameplay screen (`GameScreen`), together with theorems settling the
specification claims about them.

JavaScript `number` values appearing in game state are always integers here
(level values, targets, results of the exact operations), so they are
modelled as `Int`; grid positions and sizes are `Nat`.
-/

namespace TotalApp

/-- Tile type `NumberObject` from the type declarations: a tile on the board. -/
structure NumberObject where
  value : Int
  id : String
  position : Nat
deriving DecidableEq, Inhabited

/-- Operations `'+' | '-' | '*' | '/'`. -/
inductive Operation where
  | add
  | sub
  | mul
  | div
deriving DecidableEq, Inhabited

/-- Snapshot type `GameState`: a history snapshot pushed before each successful reduction. -/
structure GameState where
  numbers : List NumberObject
  gridSize : Nat
  num1 : NumberObject
  num2 : NumberObject
  operation : Operation
  result : Int
deriving DecidableEq, Inhabited

/-- Puzzle data: target plus tiles. -/
structure Puzzle where
  target : Int
  numbers : List NumberObject
deriving DecidableEq, Inhabited

/-- One authored entry of `levels.json`. -/
structure LevelData where
  target : Int
  numbers : List Int
deriving DecidableEq, Inhabited

/-- The authored level data: a static map from level number to level data
(`this.levels[levelKey]`; absent key modelled as `none`). -/
def LevelsMap : Type := Nat → Option LevelData

/-- JavaScript-style `list.map((value, index) => ...)`: map with the element index. -/
def mapWithIndex (f : Nat → α → β) : Nat → List α → List β
  | _, [] => []
  | i, a :: rest => f i a :: mapWithIndex f (i + 1) rest

/-- Function `GameLogicService.validateDivision`: division is valid when the larger
operand is an exact multiple of the smaller one (and the second operand is
not zero). -/
def validateDivision (num1 num2 : Int) : Bool :=
  if num2 = 0 then
    false
  else
    let larger := max num1 num2
    let smaller := min num1 num2
    larger % smaller == 0

/-- Function `GameLogicService.performCalculation`: the four operations; subtraction is
absolute difference, division is pre-validated and divides the larger by the
smaller; invalid division yields `none` (JS `null`). -/
def performCalculation (num1 : Int) (operation : Operation) (num2 : Int) : Option Int :=
  match operation with
  | Operation.add => some (num1 + num2)
  | Operation.sub => some |num1 - num2|
  | Operation.mul => some (num1 * num2)
  | Operation.div =>
    if !validateDivision num1 num2 then
      none
    else
      some (max num1 num2 / min num1 num2)

/-- Function `GameLogicService.isGameWon`: some available tile has the target value. -/
def isGameWon (availableNumbers : List NumberObject) (targetNumber : Int) : Bool :=
  availableNumbers.any fun num => num.value == targetNumber

/-- Function `GameLogicService.createFallbackPuzzle`: base values `[2,3,4,5]`, each
offset by `levelNum % 5`, position `= index`; target is the sum of the first
two generated values. `now` stands for `Date.now()` used in the ids. -/
def createFallbackPuzzle (now levelNum : Nat) : Puzzle :=
  let baseNumbers : List Int := [2, 3, 4, 5]
  let numbers : List NumberObject := mapWithIndex (fun index value =>
    { value := value + ((levelNum % 5 : Nat) : Int),
      id := "fallback_" ++ toString levelNum ++ "_" ++ toString index ++ "_" ++ toString now,
      position := index }) 0 baseNumbers
  let target : Int := (numbers.getD 0 default).value + (numbers.getD 1 default).value
  { target := target, numbers := numbers }

/-- Function `GameLogicService.generatePuzzle`: look the level up in the authored data;
build tiles in list order with `position = index` when found, otherwise fall
back to `createFallbackPuzzle`. -/
def generatePuzzle (levels : LevelsMap) (now : Nat) (levelNum : Nat) : Puzzle :=
  match levels levelNum with
  | none => createFallbackPuzzle now levelNum
  | some levelData =>
    { target := levelData.target,
      numbers := mapWithIndex (fun index value =>
        { value := value,
          id := "level_" ++ toString levelNum ++ "_" ++ toString index ++ "_" ++ toString now,
          position := index }) 0 levelData.numbers }

/-- The `GameScreen` component state that the puzzle session consists of:
level, target, tiles, grid size, original puzzle, the three-part selection,
win/invalid flags, and the undo history. -/
structure Session where
  level : Nat
  targetNumber : Int
  availableNumbers : List NumberObject
  initialGridSize : Nat
  originalPuzzle : Option Puzzle
  selectedNumber1 : Option NumberObject
  selectedOperation : Option Operation
  selectedNumber2 : Option NumberObject
  gameWon : Bool
  invalidOperation : Bool
  gameHistory : List GameState
deriving DecidableEq, Inhabited

/-- Handler `resetSelection`: clear both selected numbers, the selected operation and
the invalid-operation flag. -/
def resetSelection (s : Session) : Session :=
  { s with selectedNumber1 := none, selectedOperation := none,
           selectedNumber2 := none, invalidOperation := false }

/-- The win-check effect keyed on `[availableNumbers, targetNumber]`: if some
tile equals the target, set `gameWon` (it is never cleared here — there is no
else branch in the source effect). Applied after every handler that updates
`availableNumbers` or `targetNumber`. -/
def winEffect (s : Session) : Session :=
  if isGameWon s.availableNumbers s.targetNumber then { s with gameWon := true } else s

/-- The `performCalculation` handler of `GameScreen` (called with
`selectedNumber2` already set to `num2Obj`): reject invalid division with the
transient invalid flag; otherwise push a snapshot, remove both operands by id,
append the result tile at the first operand's position when the result is
positive, and clear the selection. `freshId` stands for the generated
`Date.now()_Math.random()` id. The win-check effect runs afterwards since
`availableNumbers` was updated. -/
def performCalcStep (s : Session) (num1Obj : NumberObject) (operation : Operation)
    (num2Obj : NumberObject) (freshId : String) : Session :=
  if operation = Operation.div ∧ validateDivision num1Obj.value num2Obj.value = false then
    { s with invalidOperation := true }
  else
    match performCalculation num1Obj.value operation num2Obj.value with
    | none => s
    | some result =>
      let snapshot : GameState :=
        { numbers := s.availableNumbers, gridSize := s.initialGridSize,
          num1 := num1Obj, num2 := num2Obj, operation := operation, result := result }
      let newNumbers := s.availableNumbers.filter fun n =>
        n.id != num1Obj.id && n.id != num2Obj.id
      let finalNumbers :=
        if result > 0 then
          newNumbers ++ [{ value := result, id := freshId, position := num1Obj.position }]
        else
          newNumbers
      winEffect (resetSelection
        { s with gameHistory := s.gameHistory ++ [snapshot],
                 availableNumbers := finalNumbers })

/-- The `selectNumber` handler: first pick, re-pick before an operation is
chosen, or second pick (of a different tile) triggering the calculation. -/
def selectNumber (s : Session) (numberObj : NumberObject) (freshId : String) : Session :=
  match s.selectedNumber1 with
  | none => { s with selectedNumber1 := some numberObj }
  | some selected1 =>
    match s.selectedOperation with
    | none => { s with selectedNumber1 := some numberObj }
    | some operation =>
      if s.selectedNumber2 = none ∧ numberObj.id ≠ selected1.id then
        performCalcStep { s with selectedNumber2 := some numberObj }
          selected1 operation numberObj freshId
      else
        s

/-- The `selectOperation` handler: only acts when a first number is selected;
then records the operation and clears any second number. -/
def selectOperation (s : Session) (operation : Operation) : Session :=
  if s.selectedNumber1.isSome then
    { s with selectedOperation := some operation, selectedNumber2 := none }
  else
    s

/-- The `undoLastMove` handler: no-op on empty history, else restore tiles and
grid size from the last snapshot, drop it, and clear the selection. The
win-check effect reruns because `availableNumbers` was set. -/
def undoLastMove (s : Session) : Session :=
  match s.gameHistory.getLast? with
  | none => s
  | some lastState =>
    winEffect (resetSelection
      { s with availableNumbers := lastState.numbers,
               initialGridSize := lastState.gridSize,
               gameHistory := s.gameHistory.dropLast })

/-- The `restartLevel` handler: restore the original puzzle (or regenerate if
it is missing), clear selection, won flag and history. The win-check effect
reruns because `availableNumbers` was set. -/
def restartLevel (levels : LevelsMap) (now : Nat) (s : Session) : Session :=
  match s.originalPuzzle with
  | some p =>
    winEffect (resetSelection
      { s with targetNumber := p.target,
               availableNumbers := p.numbers,
               initialGridSize := p.numbers.length,
               gameWon := false,
               gameHistory := [] })
  | none =>
    let puzzle := generatePuzzle levels now s.level
    winEffect (resetSelection
      { s with targetNumber := puzzle.target,
               availableNumbers := puzzle.numbers,
               initialGridSize := puzzle.numbers.length,
               originalPuzzle := some puzzle,
               gameWon := false,
               gameHistory := [] })

/-- The 600ms timeout scheduled by the invalid-division branch: clear the
invalid flag and reset the selection. -/
def invalidTimeout (s : Session) : Session :=
  resetSelection { s with invalidOperation := false }

/-- The level-change effect: initialize the session from a freshly generated
puzzle (selection, flags and history cleared, original puzzle stored). -/
def initSession (level : Nat) (puzzle : Puzzle) : Session :=
  { level := level,
    targetNumber := puzzle.target,
    availableNumbers := puzzle.numbers,
    initialGridSize := puzzle.numbers.length,
    originalPuzzle := some puzzle,
    selectedNumber1 := none,
    selectedOperation := none,
    selectedNumber2 := none,
    gameWon := false,
    invalidOperation := false,
    gameHistory := [] }

/-- A discrete player-driven event on the session. -/
inductive Action where
  | pickNumber (numberObj : NumberObject) (freshId : String)
  | pickOperation (operation : Operation)
  | clearSelection
  | undo
  | restart (now : Nat)
  | timeoutFire
deriving DecidableEq, Inhabited

/-- Dispatch one event to its handler. -/
def step (levels : LevelsMap) (s : Session) : Action → Session
  | Action.pickNumber n fresh => selectNumber s n fresh
  | Action.pickOperation op => selectOperation s op
  | Action.clearSelection => resetSelection s
  | Action.undo => undoLastMove s
  | Action.restart now => restartLevel levels now s
  | Action.timeoutFire => invalidTimeout s

/-- Run a sequence of events. -/
def applyActions (levels : LevelsMap) (s : Session) : List Action → Session
  | [] => s
  | a :: rest => applyActions levels (step levels s a) rest

/-- Observable effects of `nextLevel`: the in-memory level afterwards, the
value passed to `onLevelComplete`, and what reached storage. -/
structure ProgressEffects where
  newLevel : Nat
  notified : Option Nat
  storedCompleted : Bool
  storedCurrentLevel : Option Nat
deriving DecidableEq, Inhabited

/-- The `nextLevel` handler: try to persist the completed level and the new
current level, then advance; on any storage error the catch branch still
advances the in-memory level and notifies the caller. The storage calls are
passed in as fallible functions (`Except` models a rejected promise). -/
def nextLevel (level : Nat) (addCompletedLevel : Nat → Except String Unit)
    (setCurrentLevel : Nat → Except String Unit) : ProgressEffects :=
  match addCompletedLevel level with
  | Except.error _ =>
    { newLevel := level + 1, notified := some (level + 1),
      storedCompleted := false, storedCurrentLevel := none }
  | Except.ok _ =>
    let newLevel := level + 1
    match setCurrentLevel newLevel with
    | Except.error _ =>
      { newLevel := newLevel, notified := some newLevel,
        storedCompleted := true, storedCurrentLevel := none }
    | Except.ok _ =>
      { newLevel := newLevel, notified := some newLevel,
        storedCompleted := true, storedCurrentLevel := some newLevel }

/-- All tiles in a list carry a non-negative value. -/
def nonnegTiles (l : List NumberObject) : Prop :=
  ∀ t ∈ l, 0 ≤ t.value

/-- Session-wide non-negativity: active tiles, every history snapshot, and the
stored original puzzle all have non-negative tile values (and an original
puzzle is present, as it is from initialization on). -/
def sessionNonneg (s : Session) : Prop :=
  nonnegTiles s.availableNumbers ∧
  (∀ g ∈ s.gameHistory, nonnegTiles g.numbers) ∧
  (∃ p, s.originalPuzzle = some p ∧ nonnegTiles p.numbers)

/-- Concrete two-tile puzzle used for concrete instantiations: target 3,
tiles 6 and 2 (division reaches the target). -/
def winPuzzle : Puzzle :=
  { target := 3, numbers := [⟨6, "a", 0⟩, ⟨2, "b", 1⟩] }

/-- Empty authored level data (every level falls back). -/
def noLevels : LevelsMap := fun _ => none

/-- Session reached on `winPuzzle` by winning via `6 ÷ 2`, then re-picking the
result tile and an operation: non-empty history with a full pending
selection. -/
def winWitnessState : Session :=
  applyActions noLevels (winEffect (initSession 1 winPuzzle))
    [Action.pickNumber ⟨6, "a", 0⟩ "f", Action.pickOperation Operation.div,
     Action.pickNumber ⟨2, "b", 1⟩ "c", Action.pickNumber ⟨3, "c", 0⟩ "d",
     Action.pickOperation Operation.add]

section ProjectionLemmas

@[simp] lemma resetSelection_level (s : Session) :
    (resetSelection s).level = s.level := rfl

@[simp] lemma resetSelection_targetNumber (s : Session) :
    (resetSelection s).targetNumber = s.targetNumber := rfl

@[simp] lemma resetSelection_availableNumbers (s : Session) :
    (resetSelection s).availableNumbers = s.availableNumbers := rfl

@[simp] lemma resetSelection_initialGridSize (s : Session) :
    (resetSelection s).initialGridSize = s.initialGridSize := rfl

@[simp] lemma resetSelection_originalPuzzle (s : Session) :
    (resetSelection s).originalPuzzle = s.originalPuzzle := rfl

@[simp] lemma resetSelection_selectedNumber1 (s : Session) :
    (resetSelection s).selectedNumber1 = none := rfl

@[simp] lemma resetSelection_selectedOperation (s : Session) :
    (resetSelection s).selectedOperation = none := rfl

@[simp] lemma resetSelection_selectedNumber2 (s : Session) :
    (resetSelection s).selectedNumber2 = none := rfl

@[simp] lemma resetSelection_gameWon (s : Session) :
    (resetSelection s).gameWon = s.gameWon := rfl

@[simp] lemma resetSelection_invalidOperation (s : Session) :
    (resetSelection s).invalidOperation = false := rfl

@[simp] lemma resetSelection_gameHistory (s : Session) :
    (resetSelection s).gameHistory = s.gameHistory := rfl

@[simp] lemma winEffect_level (s : Session) :
    (winEffect s).level = s.level := by
  unfold winEffect; split <;> rfl

@[simp] lemma winEffect_targetNumber (s : Session) :
    (winEffect s).targetNumber = s.targetNumber := by
  unfold winEffect; split <;> rfl

@[simp] lemma winEffect_availableNumbers (s : Session) :
    (winEffect s).availableNumbers = s.availableNumbers := by
  unfold winEffect; split <;> rfl

@[simp] lemma winEffect_initialGridSize (s : Session) :
    (winEffect s).initialGridSize = s.initialGridSize := by
  unfold winEffect; split <;> rfl

@[simp] lemma winEffect_originalPuzzle (s : Session) :
    (winEffect s).originalPuzzle = s.originalPuzzle := by
  unfold winEffect; split <;> rfl

@[simp] lemma winEffect_selectedNumber1 (s : Session) :
    (winEffect s).selectedNumber1 = s.selectedNumber1 := by
  unfold winEffect; split <;> rfl

@[simp] lemma winEffect_selectedOperation (s : Session) :
    (winEffect s).selectedOperation = s.selectedOperation := by
  unfold winEffect; split <;> rfl

@[simp] lemma winEffect_selectedNumber2 (s : Session) :
    (winEffect s).selectedNumber2 = s.selectedNumber2 := by
  unfold winEffect; split <;> rfl

@[simp] lemma winEffect_invalidOperation (s : Session) :
    (winEffect s).invalidOperation = s.invalidOperation := by
  unfold winEffect; split <;> rfl

@[simp] lemma winEffect_gameHistory (s : Session) :
    (winEffect s).gameHistory = s.gameHistory := by
  unfold winEffect; split <;> rfl

/-- The one-directional win effect: it can only raise `gameWon`. -/
@[simp] lemma winEffect_gameWon (s : Session) :
    (winEffect s).gameWon = (s.gameWon || isGameWon s.availableNumbers s.targetNumber) := by
  unfold winEffect
  by_cases h : isGameWon s.availableNumbers s.targetNumber <;> simp [h]

end ProjectionLemmas

/-- Picking a second, different tile while a first tile and an operation are
selected routes into the calculation handler. -/
lemma selectNumber_eq_calc (s : Session) (n1 n2 : NumberObject) (op : Operation)
    (fresh : String) (h1 : s.selectedNumber1 = some n1) (h2 : s.selectedOperation = some op)
    (h3 : s.selectedNumber2 = none) (h4 : n2.id ≠ n1.id) :
    selectNumber s n2 fresh =
      performCalcStep { s with selectedNumber2 := some n2 } n1 op n2 fresh := by
  unfold selectNumber
  rw [h1, h2]
  have hcond : s.selectedNumber2 = none ∧ n2.id ≠ n1.id := ⟨h3, h4⟩
  simp only [if_pos hcond]

/-- Shape of the calculation handler when the calculation succeeds: snapshot
appended, operands filtered out by id, a positive result appended as a fresh
tile at the first operand's position, selection cleared, win effect applied. -/
lemma performCalcStep_valid (s : Session) (n1 n2 : NumberObject) (op : Operation)
    (fresh : String) (result : Int)
    (hres : performCalculation n1.value op n2.value = some result) :
    performCalcStep s n1 op n2 fresh =
      winEffect (resetSelection
        { s with
          gameHistory := s.gameHistory ++
            [{ numbers := s.availableNumbers, gridSize := s.initialGridSize,
               num1 := n1, num2 := n2, operation := op, result := result }],
          availableNumbers :=
            if result > 0 then
              (s.availableNumbers.filter fun n => n.id != n1.id && n.id != n2.id) ++
                [{ value := result, id := fresh, position := n1.position }]
            else
              s.availableNumbers.filter fun n => n.id != n1.id && n.id != n2.id }) := by
  have hvalid : ¬ (op = Operation.div ∧ validateDivision n1.value n2.value = false) := by
    rintro ⟨rfl, hv⟩
    unfold performCalculation at hres
    rw [hv] at hres
    simp at hres
  unfold performCalcStep
  rw [if_neg hvalid, hres]

/-- Shape of the calculation handler when the pending division is invalid:
only the transient invalid flag is raised. -/
lemma performCalcStep_invalid (s : Session) (n1 n2 : NumberObject) (fresh : String)
    (hv : validateDivision n1.value n2.value = false) :
    performCalcStep s n1 Operation.div n2 fresh = { s with invalidOperation := true } := by
  unfold performCalcStep
  rw [if_pos ⟨rfl, hv⟩]

/-- Removing the tiles carrying two distinct ids splits the length of a tile
list into the kept part and the two id-match counts. -/
lemma filter_two_ids_length (l : List NumberObject) (i1 i2 : String) (hne : i1 ≠ i2) :
    (l.filter fun n => n.id != i1 && n.id != i2).length
      + l.countP (fun n => n.id == i1) + l.countP (fun n => n.id == i2) = l.length := by
  induction l with
  | nil => simp
  | cons a t ih =>
    have hfc : ∀ p : NumberObject → Bool, ((a :: t).filter p).length
        = (if p a then 1 else 0) + (t.filter p).length := by
      intro p
      by_cases hp : p a
      · rw [List.filter_cons_of_pos hp]
        simp [hp, Nat.add_comm]
      · rw [List.filter_cons_of_neg (by simpa using hp)]
        simp [hp]
    rw [hfc, List.countP_cons, List.countP_cons, List.length_cons]
    by_cases ha1 : a.id = i1
    · have ha2 : ¬ a.id = i2 := fun hc => hne (ha1.symm.trans hc)
      have e1 : (a.id == i1) = true := by simp [ha1]
      have e2 : (a.id == i2) = false := by simp [ha2]
      have e3 : (a.id != i1 && a.id != i2) = false := by simp [ha1]
      rw [e1, e2, e3]
      simp only [if_pos, if_neg, Bool.false_eq_true, if_false, if_true]
      omega
    · by_cases ha2 : a.id = i2
      · have e1 : (a.id == i1) = false := by simp [ha1]
        have e2 : (a.id == i2) = true := by simp [ha2]
        have e3 : (a.id != i1 && a.id != i2) = false := by simp [ha2]
        rw [e1, e2, e3]
        simp only [Bool.false_eq_true, if_false, if_true]
        omega
      · have e1 : (a.id == i1) = false := by simp [ha1]
        have e2 : (a.id == i2) = false := by simp [ha2]
        have e3 : (a.id != i1 && a.id != i2) = true := by simp [ha1, ha2]
        rw [e1, e2, e3]
        simp only [Bool.false_eq_true, if_false, if_true]
        omega

/-- C2. theorem: For positive integers, `validateDivision` accepts exactly when the
larger operand is an exact multiple of the smaller; accepted divisions compute
`max / min`, rejected ones yield `null`; both the verdict and the result are
symmetric in the operands. -/
theorem division_spec (a b : Int) (ha : 0 < a) (hb : 0 < b) :
    (validateDivision a b = true ↔ max a b % min a b = 0) ∧
    (validateDivision a b = true →
      performCalculation a Operation.div b = some (max a b / min a b)) ∧
    (validateDivision a b = false → performCalculation a Operation.div b = none) ∧
    validateDivision a b = validateDivision b a ∧
    performCalculation a Operation.div b = performCalculation b Operation.div a := by
  have ha' : a ≠ 0 := ne_of_gt ha
  have hb' : b ≠ 0 := ne_of_gt hb
  have hsymm : validateDivision a b = validateDivision b a := by
    unfold validateDivision
    rw [if_neg hb', if_neg ha', max_comm, min_comm]
  refine ⟨?_, ?_, ?_, hsymm, ?_⟩
  · unfold validateDivision
    rw [if_neg hb']
    simp
  · intro hv
    unfold performCalculation
    rw [hv]
    rfl
  · intro hv
    unfold performCalculation
    rw [hv]
    rfl
  · unfold performCalculation
    rw [hsymm, max_comm, min_comm]

/-- Witness for C2 at `a = 6`, `b = 2`. -/
theorem division_spec_witness :
    (0 < (6 : Int)) ∧ (0 < (2 : Int)) ∧
    ((validateDivision 6 2 = true ↔ max (6 : Int) 2 % min (6 : Int) 2 = 0) ∧
      (validateDivision 6 2 = true →
        performCalculation 6 Operation.div 2 = some (max (6 : Int) 2 / min (6 : Int) 2)) ∧
      (validateDivision 6 2 = false → performCalculation 6 Operation.div 2 = none) ∧
      validateDivision 6 2 = validateDivision 2 6 ∧
      performCalculation 6 Operation.div 2 = performCalculation 2 Operation.div 6) :=
  ⟨by decide, by decide, division_spec 6 2 (by decide) (by decide)⟩

/-- C7. theorem: A level number absent from the authored data resolves to the
deterministic fallback puzzle: values `[2,3,4,5]` each offset by
`levelNum % 5`, positions `= index`, target the sum of the first two values. -/
theorem fallback_puzzle_spec (levels : LevelsMap) (now levelNum : Nat)
    (h : levels levelNum = none) :
    (generatePuzzle levels now levelNum).numbers.map (fun t => t.value)
      = ([2, 3, 4, 5] : List Int).map (fun v => v + ((levelNum % 5 : Nat) : Int)) ∧
    (generatePuzzle levels now levelNum).numbers.map (fun t => t.position) = [0, 1, 2, 3] ∧
    (generatePuzzle levels now levelNum).target
      = (2 + ((levelNum % 5 : Nat) : Int)) + (3 + ((levelNum % 5 : Nat) : Int)) := by
  unfold generatePuzzle
  rw [h]
  unfold createFallbackPuzzle
  simp [mapWithIndex]

/-- Witness for C7: level 9999 with no authored data yields tile values
`[6,7,8,9]` and target `13`, as in the spec's concrete scenario 5. -/
theorem fallback_puzzle_spec_witness :
    ((fun _ => none : LevelsMap) 9999 = none) ∧
    (generatePuzzle (fun _ => none) 0 9999).numbers.map (fun t => t.value) = [6, 7, 8, 9] ∧
    (generatePuzzle (fun _ => none) 0 9999).numbers.map (fun t => t.position) = [0, 1, 2, 3] ∧
    (generatePuzzle (fun _ => none) 0 9999).target = 13 := by
  have h := fallback_puzzle_spec (fun _ => none) 0 9999 rfl
  exact ⟨rfl, by rw [h.1]; decide, h.2.1, by rw [h.2.2]; decide⟩

/-- C8. theorem: `nextLevel` advances the in-memory level by exactly one and
notifies the caller with the new level no matter whether either persistence
call fails. -/
theorem next_level_advances_despite_storage (level : Nat)
    (addCompletedLevel setCurrentLevel : Nat → Except String Unit) :
    (nextLevel level addCompletedLevel setCurrentLevel).newLevel = level + 1 ∧
    (nextLevel level addCompletedLevel setCurrentLevel).notified = some (level + 1) := by
  unfold nextLevel
  cases addCompletedLevel level with
  | error e => exact ⟨rfl, rfl⟩
  | ok u =>
    dsimp only
    cases setCurrentLevel (level + 1) with
    | error e => exact ⟨rfl, rfl⟩
    | ok u2 => exact ⟨rfl, rfl⟩

/-- C9. theorem: Pressing an operation button with no first tile selected leaves the
session completely unchanged. -/
theorem operation_needs_first_tile (s : Session) (operation : Operation)
    (h : s.selectedNumber1 = none) : selectOperation s operation = s := by
  unfold selectOperation
  rw [h]
  rfl

/-- Witness for C9 on a freshly initialized session. -/
theorem operation_needs_first_tile_witness :
    (initSession 1 { target := 7, numbers := [⟨4, "a", 0⟩, ⟨6, "b", 1⟩] }).selectedNumber1
        = none ∧
    selectOperation (initSession 1 { target := 7, numbers := [⟨4, "a", 0⟩, ⟨6, "b", 1⟩] })
        Operation.add
      = initSession 1 { target := 7, numbers := [⟨4, "a", 0⟩, ⟨6, "b", 1⟩] } :=
  ⟨rfl, operation_needs_first_tile _ Operation.add rfl⟩

/-- C3. theorem: An invalid division attempt (second tile picked, quotient not
exact) consumes no tiles and pushes no snapshot; it only raises the transient
invalid flag, and once the timeout fires the session equals the pre-attempt
session with the selection reset to empty. -/
theorem invalid_division_is_transient (s : Session) (n1 n2 : NumberObject) (fresh : String)
    (h1 : s.selectedNumber1 = some n1) (h2 : s.selectedOperation = some Operation.div)
    (h3 : s.selectedNumber2 = none) (h4 : n2.id ≠ n1.id)
    (h5 : validateDivision n1.value n2.value = false) :
    (selectNumber s n2 fresh).availableNumbers = s.availableNumbers ∧
    (selectNumber s n2 fresh).gameHistory = s.gameHistory ∧
    (selectNumber s n2 fresh).invalidOperation = true ∧
    invalidTimeout (selectNumber s n2 fresh) =
      { s with selectedNumber1 := none, selectedOperation := none,
               selectedNumber2 := none, invalidOperation := false } := by
  rw [selectNumber_eq_calc s n1 n2 Operation.div fresh h1 h2 h3 h4,
      performCalcStep_invalid _ n1 n2 fresh h5]
  exact ⟨rfl, rfl, rfl, rfl⟩

/-- Witness for C3: spec scenario 3 — target 7, tiles 4 and 6, attempt
`4 ÷ 6`. -/
theorem invalid_division_is_transient_witness :
    ((applyActions noLevels
        (winEffect (initSession 1 { target := 7, numbers := [⟨4, "x", 0⟩, ⟨6, "y", 1⟩] }))
        [Action.pickNumber ⟨4, "x", 0⟩ "f",
         Action.pickOperation Operation.div]).selectedNumber1 = some ⟨4, "x", 0⟩) ∧
    (validateDivision 4 6 = false) ∧
    ((selectNumber (applyActions noLevels
        (winEffect (initSession 1 { target := 7, numbers := [⟨4, "x", 0⟩, ⟨6, "y", 1⟩] }))
        [Action.pickNumber ⟨4, "x", 0⟩ "f", Action.pickOperation Operation.div])
        ⟨6, "y", 1⟩ "g").availableNumbers = [⟨4, "x", 0⟩, ⟨6, "y", 1⟩]) := by
  have h := invalid_division_is_transient
    (applyActions noLevels
      (winEffect (initSession 1 { target := 7, numbers := [⟨4, "x", 0⟩, ⟨6, "y", 1⟩] }))
      [Action.pickNumber ⟨4, "x", 0⟩ "f", Action.pickOperation Operation.div])
    ⟨4, "x", 0⟩ ⟨6, "y", 1⟩ "g" (by decide) (by decide) (by decide) (by decide) (by decide)
  refine ⟨by decide, by decide, ?_⟩
  rw [h.1]
  decide

/-- C4. theorem: Undo applied right after a successful reduction restores the tile
set and grid size exactly, clears the selection, and returns the history to
its pre-reduction value (one snapshot fewer than after the reduction). -/
theorem undo_inverts_reduce (s : Session) (n1 n2 : NumberObject) (op : Operation)
    (fresh : String) (result : Int)
    (h1 : s.selectedNumber1 = some n1) (h2 : s.selectedOperation = some op)
    (h3 : s.selectedNumber2 = none) (h4 : n2.id ≠ n1.id)
    (h5 : performCalculation n1.value op n2.value = some result) :
    (undoLastMove (selectNumber s n2 fresh)).availableNumbers = s.availableNumbers ∧
    (undoLastMove (selectNumber s n2 fresh)).initialGridSize = s.initialGridSize ∧
    (undoLastMove (selectNumber s n2 fresh)).selectedNumber1 = none ∧
    (undoLastMove (selectNumber s n2 fresh)).selectedOperation = none ∧
    (undoLastMove (selectNumber s n2 fresh)).selectedNumber2 = none ∧
    (undoLastMove (selectNumber s n2 fresh)).gameHistory = s.gameHistory ∧
    (selectNumber s n2 fresh).gameHistory.length = s.gameHistory.length + 1 := by
  rw [selectNumber_eq_calc s n1 n2 op fresh h1 h2 h3 h4,
      performCalcStep_valid _ n1 n2 op fresh result h5]
  simp [undoLastMove, List.getLast?_concat, List.dropLast_concat]

/-- Witness for C4: reduce `6 ÷ 2` on `winPuzzle`, then undo. -/
theorem undo_inverts_reduce_witness :
    ((applyActions noLevels (winEffect (initSession 1 winPuzzle))
        [Action.pickNumber ⟨6, "a", 0⟩ "f",
         Action.pickOperation Operation.div]).selectedNumber1 = some ⟨6, "a", 0⟩) ∧
    (performCalculation 6 Operation.div 2 = some 3) ∧
    ((undoLastMove (selectNumber (applyActions noLevels (winEffect (initSession 1 winPuzzle))
        [Action.pickNumber ⟨6, "a", 0⟩ "f", Action.pickOperation Operation.div])
        ⟨2, "b", 1⟩ "g")).availableNumbers = [⟨6, "a", 0⟩, ⟨2, "b", 1⟩]) := by
  have h := undo_inverts_reduce
    (applyActions noLevels (winEffect (initSession 1 winPuzzle))
      [Action.pickNumber ⟨6, "a", 0⟩ "f", Action.pickOperation Operation.div])
    ⟨6, "a", 0⟩ ⟨2, "b", 1⟩ Operation.div "g" 3
    (by decide) (by decide) (by decide) (by decide) (by decide)
  refine ⟨by decide, by decide, ?_⟩
  rw [h.1]
  decide

/-- C5. theorem: A successful reduction removes the two (distinct, uniquely
identified) operand tiles and inserts the result tile only when the result is
positive: the tile count drops by 1 for a positive result and by 2 for a zero
result. -/
theorem reduce_changes_tile_count (s : Session) (n1 n2 : NumberObject) (op : Operation)
    (fresh : String) (result : Int)
    (h1 : s.selectedNumber1 = some n1) (h2 : s.selectedOperation = some op)
    (h3 : s.selectedNumber2 = none) (h4 : n2.id ≠ n1.id)
    (h5 : performCalculation n1.value op n2.value = some result)
    (hc1 : s.availableNumbers.countP (fun n => n.id == n1.id) = 1)
    (hc2 : s.availableNumbers.countP (fun n => n.id == n2.id) = 1) :
    (0 < result → (selectNumber s n2 fresh).availableNumbers.length + 1
        = s.availableNumbers.length) ∧
    (result = 0 → (selectNumber s n2 fresh).availableNumbers.length + 2
        = s.availableNumbers.length) := by
  rw [selectNumber_eq_calc s n1 n2 op fresh h1 h2 h3 h4,
      performCalcStep_valid _ n1 n2 op fresh result h5]
  have hflen := filter_two_ids_length s.availableNumbers n1.id n2.id (Ne.symm h4)
  rw [hc1, hc2] at hflen
  constructor
  · intro hr
    simp only [winEffect_availableNumbers, resetSelection_availableNumbers]
    rw [if_pos hr]
    simp only [List.length_append, List.length_cons, List.length_nil]
    omega
  · intro hr
    subst hr
    simp only [winEffect_availableNumbers, resetSelection_availableNumbers]
    rw [if_neg (by decide : ¬ ((0 : Int) > 0))]
    omega

/-- Witness for C5: positive-result case `6 ÷ 2 = 3` and zero-result case
`5 − 5 = 0` on a two-tile puzzle. -/
theorem reduce_changes_tile_count_witness :
    (performCalculation 5 Operation.sub 5 = some 0) ∧
    ((selectNumber (applyActions noLevels
        (winEffect (initSession 1 { target := 10, numbers := [⟨5, "x", 0⟩, ⟨5, "y", 1⟩] }))
        [Action.pickNumber ⟨5, "x", 0⟩ "f", Action.pickOperation Operation.sub])
        ⟨5, "y", 1⟩ "g").availableNumbers.length + 2 = 2) := by
  have h := reduce_changes_tile_count
    (applyActions noLevels
      (winEffect (initSession 1 { target := 10, numbers := [⟨5, "x", 0⟩, ⟨5, "y", 1⟩] }))
      [Action.pickNumber ⟨5, "x", 0⟩ "f", Action.pickOperation Operation.sub])
    ⟨5, "x", 0⟩ ⟨5, "y", 1⟩ Operation.sub "g" 0
    (by decide) (by decide) (by decide) (by decide) (by decide) (by decide) (by decide)
  refine ⟨by decide, ?_⟩
  have h2 := h.2 rfl
  exact h2.trans (by decide)

/-- C6. theorem: Restart returns tile set, target and grid size to the original
puzzle snapshot, clears history and selection, clears the won flag (provided
the original puzzle does not itself already contain the target, in which case
the reactive win check immediately re-raises it), and is idempotent. -/
theorem restart_restores_and_idempotent (levels levels2 : LevelsMap) (now now2 : Nat)
    (s : Session) (p : Puzzle) (hp : s.originalPuzzle = some p) :
    (restartLevel levels now s).availableNumbers = p.numbers ∧
    (restartLevel levels now s).targetNumber = p.target ∧
    (restartLevel levels now s).initialGridSize = p.numbers.length ∧
    (restartLevel levels now s).gameHistory = [] ∧
    (restartLevel levels now s).selectedNumber1 = none ∧
    (restartLevel levels now s).selectedOperation = none ∧
    (restartLevel levels now s).selectedNumber2 = none ∧
    (isGameWon p.numbers p.target = false → (restartLevel levels now s).gameWon = false) ∧
    restartLevel levels2 now2 (restartLevel levels now s) = restartLevel levels now s := by
  obtain ⟨lvl, tgt, nums, gs, orig, a1, a2, a3, won, inv, hist⟩ := s
  simp only at hp
  subst hp
  have base : restartLevel levels now
      (Session.mk lvl tgt nums gs (some p) a1 a2 a3 won inv hist)
      = winEffect (Session.mk lvl p.target p.numbers p.numbers.length (some p)
          none none none false false []) := by
    unfold restartLevel resetSelection
    rfl
  rw [base]
  by_cases hw : isGameWon p.numbers p.target
  · have hwe : winEffect (Session.mk lvl p.target p.numbers p.numbers.length (some p)
        none none none false false [])
        = Session.mk lvl p.target p.numbers p.numbers.length (some p)
            none none none true false [] := by
      unfold winEffect
      rw [if_pos hw]
    rw [hwe]
    refine ⟨rfl, rfl, rfl, rfl, rfl, rfl, rfl, ?_, ?_⟩
    · intro hfalse
      rw [hw] at hfalse
      exact absurd hfalse (by decide)
    · unfold restartLevel resetSelection winEffect
      simp only
      rw [if_pos hw]
  · have hwe : winEffect (Session.mk lvl p.target p.numbers p.numbers.length (some p)
        none none none false false [])
        = Session.mk lvl p.target p.numbers p.numbers.length (some p)
            none none none false false [] := by
      unfold winEffect
      rw [if_neg hw]
    rw [hwe]
    refine ⟨rfl, rfl, rfl, rfl, rfl, rfl, rfl, fun _ => rfl, ?_⟩
    unfold restartLevel resetSelection winEffect
    simp only
    rw [if_neg hw]

/-- Witness for C6: a session on `winPuzzle` after the winning reduction,
restarted. -/
theorem restart_restores_and_idempotent_witness :
    ((applyActions noLevels (winEffect (initSession 1 winPuzzle))
        [Action.pickNumber ⟨6, "a", 0⟩ "f", Action.pickOperation Operation.div,
         Action.pickNumber ⟨2, "b", 1⟩ "c"]).originalPuzzle = some winPuzzle) ∧
    (isGameWon winPuzzle.numbers winPuzzle.target = false) ∧
    ((restartLevel noLevels 0 (applyActions noLevels (winEffect (initSession 1 winPuzzle))
        [Action.pickNumber ⟨6, "a", 0⟩ "f", Action.pickOperation Operation.div,
         Action.pickNumber ⟨2, "b", 1⟩ "c"])).availableNumbers = winPuzzle.numbers) ∧
    ((restartLevel noLevels 0 (applyActions noLevels (winEffect (initSession 1 winPuzzle))
        [Action.pickNumber ⟨6, "a", 0⟩ "f", Action.pickOperation Operation.div,
         Action.pickNumber ⟨2, "b", 1⟩ "c"])).gameWon = false) ∧
    (restartLevel noLevels 1 (restartLevel noLevels 0
        (applyActions noLevels (winEffect (initSession 1 winPuzzle))
          [Action.pickNumber ⟨6, "a", 0⟩ "f", Action.pickOperation Operation.div,
           Action.pickNumber ⟨2, "b", 1⟩ "c"]))
      = restartLevel noLevels 0 (applyActions noLevels (winEffect (initSession 1 winPuzzle))
          [Action.pickNumber ⟨6, "a", 0⟩ "f", Action.pickOperation Operation.div,
           Action.pickNumber ⟨2, "b", 1⟩ "c"])) := by
  have h := restart_restores_and_idempotent noLevels noLevels 0 1
    (applyActions noLevels (winEffect (initSession 1 winPuzzle))
      [Action.pickNumber ⟨6, "a", 0⟩ "f", Action.pickOperation Operation.div,
       Action.pickNumber ⟨2, "b", 1⟩ "c"])
    winPuzzle (by decide)
  exact ⟨by decide, by decide, h.1, h.2.2.2.2.2.2.2.1 (by decide), h.2.2.2.2.2.2.2.2⟩

/-- Counterexample to C1 as stated: on `winPuzzle` (target 3, tiles 6 and
2), reduce `6 ÷ 2` (winning) and then undo. After the undo completes the tile
set is back to `[6, 2]` — no tile equals the target — yet `gameWon` is still
`true`, because the win-check effect has no clearing branch and `undoLastMove`
never resets the flag. -/
theorem win_iff_target_counterexample :
    ((applyActions noLevels (winEffect (initSession 1 winPuzzle))
        [Action.pickNumber ⟨6, "a", 0⟩ "f", Action.pickOperation Operation.div,
         Action.pickNumber ⟨2, "b", 1⟩ "c", Action.undo]).availableNumbers
      = [⟨6, "a", 0⟩, ⟨2, "b", 1⟩]) ∧
    ((applyActions noLevels (winEffect (initSession 1 winPuzzle))
        [Action.pickNumber ⟨6, "a", 0⟩ "f", Action.pickOperation Operation.div,
         Action.pickNumber ⟨2, "b", 1⟩ "c", Action.undo]).gameWon = true) ∧
    (isGameWon
        (applyActions noLevels (winEffect (initSession 1 winPuzzle))
          [Action.pickNumber ⟨6, "a", 0⟩ "f", Action.pickOperation Operation.div,
           Action.pickNumber ⟨2, "b", 1⟩ "c", Action.undo]).availableNumbers
        (applyActions noLevels (winEffect (initSession 1 winPuzzle))
          [Action.pickNumber ⟨6, "a", 0⟩ "f", Action.pickOperation Operation.div,
           Action.pickNumber ⟨2, "b", 1⟩ "c", Action.undo]).targetNumber = false) := by
  decide

/-- C1 amended: The won flag is only ever raised, never cleared, by the
win-check effect: after a successful reduction or a non-trivial undo it equals
the previous flag OR-ed with "some active tile equals the target" (so it is
monotone and an undo never un-wins), and after restart it equals whether the
original tile set contains the target (false for any puzzle that does not
start out won). -/
theorem win_flag_monotone (s : Session) (n1 n2 : NumberObject) (op : Operation)
    (fresh : String) (result : Int) (p : Puzzle) :
    (s.selectedNumber1 = some n1 → s.selectedOperation = some op →
      s.selectedNumber2 = none → n2.id ≠ n1.id →
      performCalculation n1.value op n2.value = some result →
      (selectNumber s n2 fresh).gameWon
        = (s.gameWon
            || isGameWon (selectNumber s n2 fresh).availableNumbers s.targetNumber)) ∧
    (s.gameHistory ≠ [] →
      (undoLastMove s).gameWon
        = (s.gameWon
            || isGameWon (undoLastMove s).availableNumbers s.targetNumber)) ∧
    (∀ levels now, s.originalPuzzle = some p →
      (restartLevel levels now s).gameWon = isGameWon p.numbers p.target) := by
  refine ⟨?_, ?_, ?_⟩
  · intro h1 h2 h3 h4 h5
    rw [selectNumber_eq_calc s n1 n2 op fresh h1 h2 h3 h4,
        performCalcStep_valid _ n1 n2 op fresh result h5]
    simp
  · intro hne
    unfold undoLastMove
    cases hg : s.gameHistory.getLast? with
    | none =>
      exact absurd (List.getLast?_eq_none_iff.mp hg) hne
    | some g => simp
  · intro levels now hp
    unfold restartLevel
    rw [hp]
    simp

/-- Witness for the amended C1 on `winWitnessState` (non-empty history, full
pending selection over the result tile). -/
theorem win_flag_monotone_witness :
    (winWitnessState.selectedNumber1 = some ⟨3, "c", 0⟩) ∧
    (winWitnessState.gameHistory ≠ []) ∧
    (winWitnessState.originalPuzzle = some winPuzzle) ∧
    ((selectNumber winWitnessState ⟨2, "b", 1⟩ "e").gameWon
      = (winWitnessState.gameWon
          || isGameWon (selectNumber winWitnessState ⟨2, "b", 1⟩ "e").availableNumbers
              winWitnessState.targetNumber)) ∧
    ((undoLastMove winWitnessState).gameWon
      = (winWitnessState.gameWon
          || isGameWon (undoLastMove winWitnessState).availableNumbers
              winWitnessState.targetNumber)) ∧
    ((restartLevel noLevels 0 winWitnessState).gameWon
      = isGameWon winPuzzle.numbers winPuzzle.target) := by
  have h := win_flag_monotone winWitnessState ⟨3, "c", 0⟩ ⟨2, "b", 1⟩ Operation.add "e" 5
    winPuzzle
  exact ⟨by decide, by decide, by decide,
    h.1 (by decide) (by decide) (by decide) (by decide) (by decide),
    h.2.1 (by decide), h.2.2 noLevels 0 (by decide)⟩

/-- Every single event preserves session-wide non-negativity of tile values:
the only tile ever inserted is a reduction result guarded by `result > 0`,
undo restores a snapshot, and restart restores the original puzzle. -/
lemma step_preserves_nonneg (levels : LevelsMap) (s : Session) (a : Action)
    (h : sessionNonneg s) : sessionNonneg (step levels s a) := by
  obtain ⟨hav, hhist, p, hp, hpn⟩ := h
  cases a with
  | pickNumber n fresh =>
    show sessionNonneg (selectNumber s n fresh)
    cases h1 : s.selectedNumber1 with
    | none =>
      unfold selectNumber
      rw [h1]
      exact ⟨hav, hhist, p, hp, hpn⟩
    | some n1 =>
      cases h2 : s.selectedOperation with
      | none =>
        unfold selectNumber
        rw [h1, h2]
        exact ⟨hav, hhist, p, hp, hpn⟩
      | some op =>
        by_cases hcond : s.selectedNumber2 = none ∧ n.id ≠ n1.id
        · rw [selectNumber_eq_calc s n1 n op fresh h1 h2 hcond.1 hcond.2]
          by_cases hinv : op = Operation.div ∧ validateDivision n1.value n.value = false
          · obtain ⟨hop, hv⟩ := hinv
            subst hop
            rw [performCalcStep_invalid _ n1 n fresh hv]
            exact ⟨hav, hhist, p, hp, hpn⟩
          · cases hres : performCalculation n1.value op n.value with
            | none =>
              unfold performCalcStep
              rw [if_neg hinv, hres]
              exact ⟨hav, hhist, p, hp, hpn⟩
            | some result =>
              rw [performCalcStep_valid _ n1 n op fresh result hres]
              refine ⟨?_, ?_, p, ?_, hpn⟩
              · simp only [winEffect_availableNumbers, resetSelection_availableNumbers]
                show nonnegTiles (if result > 0 then _ ++ _ else _)
                by_cases hr : result > 0
                · rw [if_pos hr]
                  intro t ht
                  rcases List.mem_append.mp ht with hmem | hmem
                  · exact hav t (List.mem_filter.mp hmem).1
                  · rw [List.mem_singleton.mp hmem]
                    exact le_of_lt hr
                · rw [if_neg hr]
                  intro t ht
                  exact hav t (List.mem_filter.mp ht).1
              · simp only [winEffect_gameHistory, resetSelection_gameHistory]
                show ∀ g ∈ s.gameHistory ++ [_], nonnegTiles g.numbers
                intro g hg
                rcases List.mem_append.mp hg with hmem | hmem
                · exact hhist g hmem
                · rw [List.mem_singleton.mp hmem]
                  exact hav
              · simp only [winEffect_originalPuzzle, resetSelection_originalPuzzle]
                exact hp
        · have hid : selectNumber s n fresh = s := by
            unfold selectNumber
            rw [h1, h2]
            dsimp only
            rw [if_neg hcond]
          rw [hid]
          exact ⟨hav, hhist, p, hp, hpn⟩
  | pickOperation op =>
    show sessionNonneg (selectOperation s op)
    unfold selectOperation
    by_cases h1 : s.selectedNumber1.isSome
    · rw [if_pos h1]
      exact ⟨hav, hhist, p, hp, hpn⟩
    · rw [if_neg h1]
      exact ⟨hav, hhist, p, hp, hpn⟩
  | clearSelection =>
    exact ⟨hav, hhist, p, hp, hpn⟩
  | undo =>
    show sessionNonneg (undoLastMove s)
    unfold undoLastMove
    cases hg : s.gameHistory.getLast? with
    | none => exact ⟨hav, hhist, p, hp, hpn⟩
    | some g =>
      dsimp only
      refine ⟨?_, ?_, p, ?_, hpn⟩
      · simp only [winEffect_availableNumbers, resetSelection_availableNumbers]
        exact hhist g (List.mem_of_getLast?_eq_some hg)
      · simp only [winEffect_gameHistory, resetSelection_gameHistory]
        show ∀ g2 ∈ s.gameHistory.dropLast, nonnegTiles g2.numbers
        intro g2 hg2
        exact hhist g2 ((s.gameHistory.dropLast_sublist).subset hg2)
      · simp only [winEffect_originalPuzzle, resetSelection_originalPuzzle]
        exact hp
  | restart now =>
    show sessionNonneg (restartLevel levels now s)
    unfold restartLevel
    rw [hp]
    dsimp only
    refine ⟨?_, ?_, p, ?_, hpn⟩
    · simp only [winEffect_availableNumbers, resetSelection_availableNumbers]
      exact hpn
    · simp only [winEffect_gameHistory, resetSelection_gameHistory]
      intro g hg
      exact absurd hg (List.not_mem_nil g)
    · simp only [winEffect_originalPuzzle, resetSelection_originalPuzzle]
  | timeoutFire =>
    exact ⟨hav, hhist, p, hp, hpn⟩

/-- C10. theorem: If every tile of the initial puzzle has a non-negative value,
then after any sequence of player events (tile picks with reductions, undos,
restarts, clears, timeouts) every active tile still has a non-negative
value. -/
theorem tile_values_stay_nonneg (levels : LevelsMap) (level : Nat) (puzzle : Puzzle)
    (h : ∀ t ∈ puzzle.numbers, 0 ≤ t.value) (acts : List Action) :
    ∀ t ∈ (applyActions levels (winEffect (initSession level puzzle)) acts).availableNumbers,
      0 ≤ t.value := by
  have key : ∀ (acts : List Action) (s : Session), sessionNonneg s →
      sessionNonneg (applyActions levels s acts) := by
    intro acts
    induction acts with
    | nil => intro s hs; exact hs
    | cons a rest ih =>
      intro s hs
      exact ih _ (step_preserves_nonneg levels s a hs)
  have h0 : sessionNonneg (winEffect (initSession level puzzle)) := by
    refine ⟨?_, ?_, puzzle, ?_, h⟩
    · simp only [winEffect_availableNumbers]
      exact h
    · simp only [winEffect_gameHistory]
      intro g hg
      exact absurd hg (List.not_mem_nil g)
    · simp only [winEffect_originalPuzzle]
      rfl
  exact (key acts _ h0).1

/-- Witness for C10: `winPuzzle` (non-negative tiles) driven through a winning
reduction, an undo and a restart. -/
theorem tile_values_stay_nonneg_witness :
    (∀ t ∈ winPuzzle.numbers, 0 ≤ t.value) ∧
    (∀ t ∈ (applyActions noLevels (winEffect (initSession 1 winPuzzle))
        [Action.pickNumber ⟨6, "a", 0⟩ "f", Action.pickOperation Operation.div,
         Action.pickNumber ⟨2, "b", 1⟩ "c", Action.undo,
         Action.restart 0]).availableNumbers, 0 ≤ t.value) :=
  ⟨by decide,
   tile_values_stay_nonneg noLevels 1 winPuzzle (by decide)
     [Action.pickNumber ⟨6, "a", 0⟩ "f", Action.pickOperation Operation.div,
      Action.pickNumber ⟨2, "b", 1⟩ "c", Action.undo, Action.restart 0]⟩

end TotalApp
